import Mathlib

/-!
# ResolveProxyHelper (atom/browser/net/resolve_proxy_helper.cc)

A shallow embedding of `atom::ResolveProxyHelper`: the queue of pending proxy
resolutions, the mojo binding that is bound exactly while a lookup is in
flight, and the three member functions `ResolveProxy`, `StartPendingRequest`
and `OnProxyLookupComplete`, together with the destructor.

Every member function is a pure function on the object state.  The state
carries a ghost field `effects`: the calls the object makes on its
collaborators (binding, network context, callbacks) and the `DCHECK`s that
failed, in program order.  A failed `DCHECK` is recorded and execution goes on,
as in a build without `DCHECK`s; whether any assertion fails is then a
property of the recorded effects.
-/

namespace atom

/-- The URL type `GURL`; the helper only stores it and passes it on. -/
abbrev GURL := String

/-- Modelled from the spec: `net::ProxyInfo` is declared in
`net/proxy_resolution/proxy_info.h`, outside this file.  The only use the
helper makes of it is `ToPacString()`, "its canonical proxy-specification
string", so a value is represented by that string. -/
structure ProxyInfo where
  ToPacString : String
  deriving DecidableEq, Repr

/-- Modelled from the spec: the success code of the lookup service
(`net::OK` in `net/base/net_errors.h`, outside this file). -/
def OK : Int := 0

/-- Modelled from the spec: a generic non-success code of the lookup service
(`net::ERR_FAILED` in `net/base/net_errors.h`, outside this file). -/
def ERR_FAILED : Int := -2

/-- Modelled from the spec: the abort code bound into the connection error
handler (`net::ERR_ABORTED` in `net/base/net_errors.h`, outside this file). -/
def ERR_ABORTED : Int := -3

/-- A `ResolveProxyCallback` is identified by a number; `none` is the null
callback.  What running a callback does to the helper is given by a
`CallbackBody`. -/
abbrev ResolveProxyCallback := Option Nat

/-- The struct `ResolveProxyHelper::PendingRequest`. -/
structure PendingRequest where
  url : GURL
  callback : ResolveProxyCallback
  deriving DecidableEq, Repr

/-- The code of the callbacks, which belongs to the callers: `body c proxy` is
the list of `ResolveProxy(url, callback)` calls that callback `c` makes on this
helper while it runs with argument `proxy`.  A callback that does not call
back into the helper has the empty list. -/
abbrev CallbackBody := Nat → String → List (GURL × ResolveProxyCallback)

/-- A callback environment in which no callback calls back into the helper. -/
def NoReentry (body : CallbackBody) : Prop := ∀ c proxy, body c proxy = []

/-- The callback environment in which every callback only receives its
argument. -/
def plainCallbacks : CallbackBody := fun _ _ => []

/-- The assertions of the file, by place. -/
inductive Dcheck
  /-- The check `DCHECK(!owned_self_)` in the destructor (line 26). -/
  | dtor_not_owned_self
  /-- The check `DCHECK(!binding_.is_bound())` in the destructor (line 27). -/
  | dtor_not_bound
  /-- The check `DCHECK_EQ(1u, pending_requests_.size())` in `ResolveProxy` (line 40). -/
  | resolve_size_is_one
  /-- The check `DCHECK(!binding_.is_bound())` in `StartPendingRequest` (line 47). -/
  | start_not_bound
  /-- The check `DCHECK(!pending_requests_.empty())` in `StartPendingRequest` (line 48). -/
  | start_not_empty
  /-- The check `DCHECK(!pending_requests_.empty())` in `OnProxyLookupComplete` (line 66). -/
  | complete_not_empty
  deriving DecidableEq, Repr

/-- What an observer of the helper sees, in program order. -/
inductive Effect
  /-- A `DCHECK` whose condition was false. -/
  | dcheckFailed (d : Dcheck)
  /-- The call `binding_.Bind(...)`. -/
  | bind
  /-- The call `binding_.Close()`. -/
  | close
  /-- The call `LookUpProxyForURL(url, client)` on the network context: a lookup start. -/
  | lookUpProxyForURL (url : GURL)
  /-- The call `callback.Run(proxy)` on callback `c`. -/
  | run (c : Nat) (proxy : String)
  /-- The lookup service answers the lookup in flight (written by the driver
  `deliver`, not by the helper). -/
  | answered (net_error : Int) (proxy_info : Option ProxyInfo)
  /-- The lookup service drops the connection of the lookup in flight (written
  by the driver `deliver`, not by the helper). -/
  | disconnected
  deriving DecidableEq, Repr

/-- The state of `binding_` while it is bound: the arguments bound into the
connection error handler (a call of `OnProxyLookupComplete`), if one is set,
and the URL of the lookup that was given the other end of the pipe, if any. -/
structure Binding where
  connection_error_handler : Option (Int × Option ProxyInfo)
  lookup : Option GURL
  deriving DecidableEq, Repr

/-- The object state of `ResolveProxyHelper`.  `binding_ = none` is the unbound
binding.  `owned_self_` is a member declared in the header; no function of the
file assigns it.  `effects` is the ghost trace. -/
structure ResolveProxyHelper where
  pending_requests_ : List PendingRequest
  binding_ : Option Binding
  owned_self_ : Bool
  effects : List Effect
  deriving DecidableEq, Repr

namespace ResolveProxyHelper

/-- The constructor: `binding_(this)` is unbound, the queue is empty and
`owned_self_` is null. -/
def init : ResolveProxyHelper :=
  { pending_requests_ := [], binding_ := none, owned_self_ := false, effects := [] }

/-- Records one effect at the end of the trace. -/
def emit (e : Effect) (s : ResolveProxyHelper) : ResolveProxyHelper :=
  { s with effects := s.effects ++ [e] }

/-- The statement `DCHECK(cond)` at place `d`. -/
def dcheck (cond : Bool) (d : Dcheck) (s : ResolveProxyHelper) : ResolveProxyHelper :=
  if cond then s else s.emit (.dcheckFailed d)

/-- The test `binding_.is_bound()`. -/
def is_bound (s : ResolveProxyHelper) : Bool := s.binding_.isSome

/-- The member function `ResolveProxyHelper::StartPendingRequest` (lines 45-60).
A `Bind` on a binding that is bound replaces the pipe.  Calling `front()` on an
empty queue is undefined; the model stops there, after the handler is set. -/
def StartPendingRequest (s : ResolveProxyHelper) : ResolveProxyHelper :=
  let s := s.dcheck (!s.is_bound) .start_not_bound
  let s := s.dcheck (!s.pending_requests_.isEmpty) .start_not_empty
  let s := emit .bind { s with binding_ := some { connection_error_handler := none, lookup := none } }
  let s := { s with binding_ := s.binding_.map fun (b : Binding) =>
    { b with connection_error_handler := some (ERR_ABORTED, none) } }
  match s.pending_requests_ with
  | [] => s
  | front :: _ =>
    emit (.lookUpProxyForURL front.url)
      { s with binding_ := s.binding_.map fun (b : Binding) => { b with lookup := some front.url } }

/-- The member function `ResolveProxyHelper::ResolveProxy` (lines 32-43). -/
def ResolveProxy (url : GURL) (callback : ResolveProxyCallback) (s : ResolveProxyHelper) :
    ResolveProxyHelper :=
  let s := { s with pending_requests_ := s.pending_requests_ ++ [⟨url, callback⟩] }
  if !s.is_bound then
    let s := s.dcheck (s.pending_requests_.length == 1) .resolve_size_is_one
    s.StartPendingRequest
  else s

/-- The statement `callback.Run(proxy)` on a non-null callback: the run is
recorded and the callback's own calls of `ResolveProxy` are made, in order. -/
def Run (body : CallbackBody) (c : Nat) (proxy : String) (s : ResolveProxyHelper) :
    ResolveProxyHelper :=
  (body c proxy).foldl (fun s call => s.ResolveProxy call.1 call.2) (s.emit (.run c proxy))

/-- The member function `ResolveProxyHelper::OnProxyLookupComplete` (lines
62-84).  Calling `front()` on an empty queue is undefined; the model stops
there, after `Close()`. -/
def OnProxyLookupComplete (body : CallbackBody) (net_error : Int)
    (proxy_info : Option ProxyInfo) (s : ResolveProxyHelper) : ResolveProxyHelper :=
  -- the body never reads `net_error`
  let _ := net_error
  let s := s.dcheck (!s.pending_requests_.isEmpty) .complete_not_empty
  let s := emit .close { s with binding_ := none }
  match s.pending_requests_ with
  | [] => s
  | completed_request :: rest =>
    let s := { s with pending_requests_ := rest }
    let proxy : String :=
      match proxy_info with
      | some info => info.ToPacString
      | none => ""
    let s :=
      match completed_request.callback with
      | some c => s.Run body c proxy
      | none => s
    if !s.pending_requests_.isEmpty then s.StartPendingRequest else s

/-- The connection error handler of `binding_` fires (lines 53-55): the call
bound into it is made.  Without a bound binding, or without a handler, nothing
is called. -/
def OnConnectionError (body : CallbackBody) (s : ResolveProxyHelper) : ResolveProxyHelper :=
  match s.binding_ with
  | some b =>
    match b.connection_error_handler with
    | some (net_error, proxy_info) => s.OnProxyLookupComplete body net_error proxy_info
    | none => s
  | none => s

/-- The destructor `ResolveProxyHelper::~ResolveProxyHelper` (lines 24-30), followed by the
destruction of the member `binding_`, which releases a bound pipe without
calling anything on the helper. -/
def destroy (s : ResolveProxyHelper) : ResolveProxyHelper :=
  let s := s.dcheck (!s.owned_self_) .dtor_not_owned_self
  let s := s.dcheck (!s.is_bound) .dtor_not_bound
  let s := { s with pending_requests_ := [] }
  { s with binding_ := none }

end ResolveProxyHelper

/-- What happens to a helper from outside: a caller calls `ResolveProxy`, or
the lookup service answers or drops the lookup in flight. -/
inductive Event
  | resolve (url : GURL) (callback : ResolveProxyCallback)
  | complete (net_error : Int) (proxy_info : Option ProxyInfo)
  | disconnect
  deriving DecidableEq, Repr

open ResolveProxyHelper

/-- The driver: delivers one event to the helper.  An answer or a disconnect
is first written to the trace, as the lookup service sees it. -/
def deliver (body : CallbackBody) (s : ResolveProxyHelper) : Event → ResolveProxyHelper
  | .resolve url callback => s.ResolveProxy url callback
  | .complete net_error proxy_info =>
    (s.emit (.answered net_error proxy_info)).OnProxyLookupComplete body net_error proxy_info
  | .disconnect => (s.emit .disconnected).OnConnectionError body

/-- Delivers a sequence of events, in order. -/
def run (body : CallbackBody) (s : ResolveProxyHelper) (evs : List Event) : ResolveProxyHelper :=
  evs.foldl (deliver body) s

/-- An answer or a disconnect can only be delivered through a bound binding,
that is, while a lookup is in flight. -/
def deliverable (s : ResolveProxyHelper) : Event → Bool
  | .resolve _ _ => true
  | .complete _ _ => s.is_bound
  | .disconnect => s.is_bound

/-- Every answer and disconnect of the sequence is delivered while a lookup is
in flight. -/
def InFlightOnly (body : CallbackBody) : ResolveProxyHelper → List Event → Bool
  | _, [] => true
  | s, e :: evs => deliverable s e && InFlightOnly body (deliver body s e) evs

/-! ## Observations on traces and event sequences -/

/-- The callbacks that were run, in order. -/
def invokedCallbacks (effs : List Effect) : List Nat :=
  effs.filterMap fun
    | .run c _ => some c
    | _ => none

/-- The callback runs with their arguments, in order. -/
def invocations (effs : List Effect) : List (Nat × String) :=
  effs.filterMap fun
    | .run c proxy => some (c, proxy)
    | _ => none

/-- The URLs of the lookups that were started, in order. -/
def lookupStarts (effs : List Effect) : List GURL :=
  effs.filterMap fun
    | .lookUpProxyForURL url => some url
    | _ => none

/-- The assertions that failed, in order. -/
def dcheckFailures (effs : List Effect) : List Dcheck :=
  effs.filterMap fun
    | .dcheckFailed d => some d
    | _ => none

/-- The requests submitted by a sequence of events, in submission order. -/
def submitted : List Event → List PendingRequest
  | [] => []
  | .resolve url callback :: evs => ⟨url, callback⟩ :: submitted evs
  | _ :: evs => submitted evs

/-- The number of answers and disconnects in a sequence of events. -/
def completions : List Event → Nat
  | [] => 0
  | .resolve _ _ :: evs => completions evs
  | _ :: evs => completions evs + 1

/-- The check a recording harness makes on a trace: `outstanding` tells
whether a lookup was started and not yet answered or dropped.  A lookup start
while one is outstanding is a violation; an answer or disconnect ends the
outstanding lookup. -/
def singleFlightFrom (outstanding : Bool) : List Effect → Bool
  | [] => true
  | .lookUpProxyForURL _ :: effs => !outstanding && singleFlightFrom true effs
  | .answered _ _ :: effs => singleFlightFrom false effs
  | .disconnected :: effs => singleFlightFrom false effs
  | _ :: effs => singleFlightFrom outstanding effs

/-- No two lookup starts of the trace without an answer or disconnect between
them. -/
def singleFlight (effs : List Effect) : Bool := singleFlightFrom false effs

/-- The URL of the lookup in flight: the lookup that holds the other end of
the bound pipe. -/
def inFlightUrl (s : ResolveProxyHelper) : Option GURL :=
  s.binding_.bind fun b => b.lookup

/-- The state named Idle in the specification: empty queue, no active handle. -/
def Idle (s : ResolveProxyHelper) : Prop :=
  s.pending_requests_ = [] ∧ s.is_bound = false

/-- The idle/active invariant: the binding is bound exactly when the queue is
non-empty, and the lookup in flight is then the one of the head request. -/
def IdleOrActive (s : ResolveProxyHelper) : Prop :=
  (s.is_bound = true ↔ s.pending_requests_ ≠ []) ∧
    (s.is_bound = true → inFlightUrl s = s.pending_requests_.head?.map fun r => r.url)

instance (s : ResolveProxyHelper) : Decidable (Idle s) := by
  unfold Idle; infer_instance

instance (s : ResolveProxyHelper) : Decidable (IdleOrActive s) := by
  unfold IdleOrActive; infer_instance

/-- The binding as `StartPendingRequest` leaves it for a lookup of `url`. -/
def boundFor (url : GURL) : Binding :=
  { connection_error_handler := some (ERR_ABORTED, none), lookup := some url }

/-- The invariant used in the proofs: either the queue is empty and the binding
unbound, or the binding is the one `StartPendingRequest` made for the head. -/
def WellFormed (s : ResolveProxyHelper) : Prop :=
  match s.pending_requests_ with
  | [] => s.binding_ = none
  | front :: _ => s.binding_ = some (boundFor front.url)

instance (s : ResolveProxyHelper) : Decidable (WellFormed s) := by
  unfold WellFormed; split <;> infer_instance

/-- The effects of running the callback of a completed request on `proxy`. -/
def runEffects (callback : ResolveProxyCallback) (proxy : String) : List Effect :=
  match callback with
  | some c => [.run c proxy]
  | none => []

/-- The result string of a completion: the PAC string of the proxy info, or
the empty string without one. -/
def proxyString (proxy_info : Option ProxyInfo) : String :=
  match proxy_info with
  | some info => info.ToPacString
  | none => ""

/-- An event of the lookup service: an answer or a disconnect. -/
def Event.isCompletion : Event → Bool
  | .resolve _ _ => false
  | _ => true

/-- The state of `OnProxyLookupComplete` after the statement that runs the
callback of the completed request `front` (line 79), when the queue was
`front :: rest` on entry. -/
def afterCallback (body : CallbackBody) (proxy_info : Option ProxyInfo)
    (s : ResolveProxyHelper) (front : PendingRequest) (rest : List PendingRequest) :
    ResolveProxyHelper :=
  match front.callback with
  | some c =>
    Run body c (proxyString proxy_info)
      { s with pending_requests_ := rest, binding_ := none, effects := s.effects ++ [.close] }
  | none =>
    { s with pending_requests_ := rest, binding_ := none, effects := s.effects ++ [.close] }

/-- The effects of starting the lookup of the next request, if there is one. -/
def startEffects : List PendingRequest → List Effect
  | [] => []
  | next :: _ => [.bind, .lookUpProxyForURL next.url]

/-- Three requests submitted to a fresh helper; the second has a null
callback. -/
def threeRequests : List Event :=
  [.resolve "http://a/" (some 1), .resolve "http://b/" none, .resolve "http://c/" (some 3)]

/-- Three requests, then an answer to the first and a disconnect for the
second. -/
def sampleEvents : List Event :=
  threeRequests ++ [.complete OK (some ⟨"PROXY 9.9.9.9:80"⟩), .disconnect]

/-- The requests completed by a sequence of events delivered from state `s`, in
completion order: at each answer or disconnect, the request that
`OnProxyLookupComplete` moves out of the front of the queue
(`completed_request`, line 71). -/
def completedRequests (body : CallbackBody) :
    ResolveProxyHelper → List Event → List PendingRequest
  | _, [] => []
  | s, e :: evs =>
    (if e.isCompletion then s.pending_requests_.head?.toList else []) ++
      completedRequests body (deliver body s e) evs

/-- A callback environment with one re-entrant callback: callback 1 calls
`ResolveProxy("http://z/", 9)` on the helper while it runs; the others only
receive their argument. -/
def reentrantOnce : CallbackBody :=
  fun c _ => if c = 1 then [("http://z/", some 9)] else []

/-- Three requests and an answer to the first: the head of the queue is then
the request with the null callback. -/
def nullHeadEvents : List Event :=
  threeRequests ++ [.complete OK none]

/-- The requests a completed request `front` submits from its own callback,
run on `proxy`: the `ResolveProxy` calls of the callback's body, in call
order; none for a null callback. -/
def headCalls (body : CallbackBody) (front : PendingRequest) (proxy : String) :
    List PendingRequest :=
  match front.callback with
  | some c => (body c proxy).map fun call => ⟨call.1, call.2⟩
  | none => []

/-- The requests submitted by the callback runs `runs` (callback and
argument), in call order. -/
def nestedCalls (body : CallbackBody) : List (Nat × String) → List PendingRequest
  | [] => []
  | (c, proxy) :: runs =>
    ((body c proxy).map fun call => ⟨call.1, call.2⟩) ++ nestedCalls body runs

/-- All `ResolveProxy` calls made while event `e` is delivered in state `s`:
the call of the event itself, if it is one, and the calls made by the
callbacks that the delivery runs, read off the trace. -/
def callsDuring (body : CallbackBody) (s : ResolveProxyHelper) (e : Event) :
    List PendingRequest :=
  (match e with
    | .resolve url callback => [⟨url, callback⟩]
    | _ => []) ++
    nestedCalls body
      ((invocations (deliver body s e).effects).drop (invocations s.effects).length)

/-- All requests submitted while a sequence of events is delivered from state
`s`, by callers and by callbacks, in the order of the `ResolveProxy` calls. -/
def allSubmitted (body : CallbackBody) :
    ResolveProxyHelper → List Event → List PendingRequest
  | _, [] => []
  | s, e :: evs => callsDuring body s e ++ allSubmitted body (deliver body s e) evs

/-- The result string that the completion event `e` delivers. -/
def resultString : Event → String
  | .complete _ proxy_info => proxyString proxy_info
  | _ => ""

/-- What a completion adds to the trace after the run of the callback, when
the queue behind the completed request is `rest` and the callback submitted
`nested`.  Without nested requests it is the start of the next lookup.  With
nested requests the first nested `ResolveProxy` finds the binding closed and
starts a lookup for the head of the queue (its size assertion fails if `rest`
is not empty), and `OnProxyLookupComplete` then starts it again on the bound
binding. -/
def reentryEffects (rest nested : List PendingRequest) : List Effect :=
  match nested, rest with
  | [], _ => startEffects rest
  | new :: _, [] =>
    [.bind, .lookUpProxyForURL new.url,
     .dcheckFailed .start_not_bound, .bind, .lookUpProxyForURL new.url]
  | _ :: _, older :: _ =>
    [.dcheckFailed .resolve_size_is_one, .bind, .lookUpProxyForURL older.url,
     .dcheckFailed .start_not_bound, .bind, .lookUpProxyForURL older.url]

/-- Two requests, then completions for both and for the request that callback
1 submits while it runs (under `reentrantOnce`). -/
def reentrantEvents : List Event :=
  [.resolve "http://a/" (some 1), .resolve "http://b/" (some 2), .complete OK none,
   .disconnect, .complete OK none]

/-- Two requests and an answer to the first, whose callback 1 (under
`reentrantOnce`) submits a request while it runs. -/
def reentrantAnswer : List Event :=
  [.resolve "http://a/" (some 1), .resolve "http://b/" (some 2), .complete OK none]

/-- Two requests submitted to a fresh helper, with callbacks 1 and 2. -/
def twoRequests : List Event :=
  [.resolve "http://a/" (some 1), .resolve "http://b/" (some 2)]

theorem StartPendingRequest_unbound (s : ResolveProxyHelper) (front : PendingRequest)
    (rest : List PendingRequest) (hq : s.pending_requests_ = front :: rest)
    (hb : s.binding_ = none) :
    s.StartPendingRequest =
      { s with binding_ := some (boundFor front.url),
               effects := s.effects ++ [.bind, .lookUpProxyForURL front.url] } := by
  simp [StartPendingRequest, dcheck, is_bound, emit, hq, hb, boundFor]

theorem ResolveProxy_unbound_empty (url : GURL) (callback : ResolveProxyCallback)
    (s : ResolveProxyHelper) (hq : s.pending_requests_ = []) (hb : s.binding_ = none) :
    s.ResolveProxy url callback =
      { s with pending_requests_ := [⟨url, callback⟩],
               binding_ := some (boundFor url),
               effects := s.effects ++ [.bind, .lookUpProxyForURL url] } := by
  simp [ResolveProxy, StartPendingRequest, dcheck, is_bound, emit, hq, hb, boundFor]

theorem ResolveProxy_bound (url : GURL) (callback : ResolveProxyCallback)
    (s : ResolveProxyHelper) (hb : s.is_bound = true) :
    s.ResolveProxy url callback =
      { s with pending_requests_ := s.pending_requests_ ++ [⟨url, callback⟩] } := by
  simp only [is_bound] at hb
  simp [ResolveProxy, is_bound, hb]

theorem Run_noReentry (body : CallbackBody) (hbody : NoReentry body) (c : Nat)
    (proxy : String) (s : ResolveProxyHelper) :
    s.Run body c proxy = s.emit (.run c proxy) := by
  simp [Run, hbody c proxy]

theorem OnProxyLookupComplete_last (body : CallbackBody) (hbody : NoReentry body)
    (net_error : Int) (proxy_info : Option ProxyInfo) (s : ResolveProxyHelper)
    (front : PendingRequest) (hq : s.pending_requests_ = [front]) :
    s.OnProxyLookupComplete body net_error proxy_info =
      { s with pending_requests_ := [],
               binding_ := none,
               effects := s.effects ++ .close :: runEffects front.callback (proxyString proxy_info) } := by
  cases hc : front.callback <;> cases proxy_info <;>
    simp [OnProxyLookupComplete, dcheck, emit, hq, hc, Run_noReentry body hbody, runEffects,
      proxyString]

theorem OnProxyLookupComplete_more (body : CallbackBody) (hbody : NoReentry body)
    (net_error : Int) (proxy_info : Option ProxyInfo) (s : ResolveProxyHelper)
    (front next : PendingRequest) (rest : List PendingRequest)
    (hq : s.pending_requests_ = front :: next :: rest) :
    s.OnProxyLookupComplete body net_error proxy_info =
      { s with pending_requests_ := next :: rest,
               binding_ := some (boundFor next.url),
               effects := s.effects ++ .close :: runEffects front.callback (proxyString proxy_info)
                 ++ [.bind, .lookUpProxyForURL next.url] } := by
  cases hc : front.callback <;> cases proxy_info <;>
    simp [OnProxyLookupComplete, dcheck, emit, hq, hc, Run_noReentry body hbody, runEffects,
      proxyString, StartPendingRequest, is_bound, boundFor]

/-! ## One delivered event -/

theorem wellFormed_bound_iff (s : ResolveProxyHelper) (hw : WellFormed s) :
    s.is_bound = true ↔ s.pending_requests_ ≠ [] := by
  unfold WellFormed at hw
  cases hq : s.pending_requests_ with
  | nil => simp [hq] at hw; simp [is_bound, hw]
  | cons front rest => simp [hq] at hw; simp [is_bound, hw]

theorem deliver_resolve_facts (body : CallbackBody) (s : ResolveProxyHelper)
    (hw : WellFormed s) (url : GURL) (callback : ResolveProxyCallback) :
    WellFormed (deliver body s (.resolve url callback)) ∧
    (deliver body s (.resolve url callback)).pending_requests_ =
      s.pending_requests_ ++ [⟨url, callback⟩] ∧
    invokedCallbacks (deliver body s (.resolve url callback)).effects =
      invokedCallbacks s.effects ∧
    dcheckFailures (deliver body s (.resolve url callback)).effects =
      dcheckFailures s.effects ∧
    lookupStarts (deliver body s (.resolve url callback)).effects =
      lookupStarts s.effects ++ (if s.pending_requests_ = [] then [url] else []) := by
  unfold WellFormed at hw
  cases hq : s.pending_requests_ with
  | nil =>
    simp only [hq] at hw
    simp [deliver, ResolveProxy_unbound_empty url callback s hq hw, WellFormed,
      invokedCallbacks, dcheckFailures, lookupStarts, List.filterMap_append]
  | cons front rest =>
    simp only [hq] at hw
    have hb : s.is_bound = true := by simp [is_bound, hw]
    simp [deliver, ResolveProxy_bound url callback s hb, WellFormed, hq, hw]

theorem OnProxyLookupComplete_facts (body : CallbackBody) (hbody : NoReentry body)
    (net_error : Int) (proxy_info : Option ProxyInfo) (s : ResolveProxyHelper)
    (front : PendingRequest) (rest : List PendingRequest)
    (hq : s.pending_requests_ = front :: rest) :
    WellFormed (s.OnProxyLookupComplete body net_error proxy_info) ∧
    (s.OnProxyLookupComplete body net_error proxy_info).pending_requests_ = rest ∧
    invokedCallbacks (s.OnProxyLookupComplete body net_error proxy_info).effects =
      invokedCallbacks s.effects ++ front.callback.toList ∧
    dcheckFailures (s.OnProxyLookupComplete body net_error proxy_info).effects =
      dcheckFailures s.effects ∧
    lookupStarts (s.OnProxyLookupComplete body net_error proxy_info).effects =
      lookupStarts s.effects ++ (rest.head?.map fun r => r.url).toList := by
  cases rest with
  | nil =>
    rw [OnProxyLookupComplete_last body hbody net_error proxy_info s front hq]
    cases hc : front.callback <;>
      simp [WellFormed, invokedCallbacks, dcheckFailures, lookupStarts, List.filterMap_append,
        runEffects]
  | cons next rest =>
    rw [OnProxyLookupComplete_more body hbody net_error proxy_info s front next rest hq]
    cases hc : front.callback <;>
      simp [WellFormed, invokedCallbacks, dcheckFailures, lookupStarts, List.filterMap_append,
        runEffects]

theorem OnConnectionError_bound (body : CallbackBody) (s : ResolveProxyHelper)
    (url : GURL) (hb : s.binding_ = some (boundFor url)) :
    s.OnConnectionError body = s.OnProxyLookupComplete body ERR_ABORTED none := by
  simp [OnConnectionError, hb, boundFor]

theorem deliver_completion_facts (body : CallbackBody) (hbody : NoReentry body)
    (s : ResolveProxyHelper) (hw : WellFormed s) (e : Event) (he : e.isCompletion = true)
    (front : PendingRequest) (rest : List PendingRequest)
    (hq : s.pending_requests_ = front :: rest) :
    WellFormed (deliver body s e) ∧
    (deliver body s e).pending_requests_ = rest ∧
    invokedCallbacks (deliver body s e).effects =
      invokedCallbacks s.effects ++ front.callback.toList ∧
    dcheckFailures (deliver body s e).effects = dcheckFailures s.effects ∧
    lookupStarts (deliver body s e).effects =
      lookupStarts s.effects ++ (rest.head?.map fun r => r.url).toList := by
  unfold WellFormed at hw
  simp only [hq] at hw
  cases e with
  | resolve url callback => simp [Event.isCompletion] at he
  | complete net_error proxy_info =>
    have h := OnProxyLookupComplete_facts body hbody net_error proxy_info
      (s.emit (.answered net_error proxy_info)) front rest hq
    simpa [deliver, emit, invokedCallbacks, dcheckFailures, lookupStarts,
      List.filterMap_append] using h
  | disconnect =>
    have h := OnProxyLookupComplete_facts body hbody ERR_ABORTED none
      (s.emit .disconnected) front rest hq
    have hb : (s.emit .disconnected).binding_ = some (boundFor front.url) := hw
    have hd : deliver body s .disconnect =
        (s.emit .disconnected).OnProxyLookupComplete body ERR_ABORTED none :=
      OnConnectionError_bound body _ front.url hb
    rw [hd]
    simpa [emit, invokedCallbacks, dcheckFailures, lookupStarts, List.filterMap_append] using h

theorem deliver_wellFormed (body : CallbackBody) (hbody : NoReentry body)
    (s : ResolveProxyHelper) (hw : WellFormed s) (e : Event) :
    WellFormed (deliver body s e) := by
  cases hq : s.pending_requests_ with
  | nil =>
    have hb : s.binding_ = none := by simpa [WellFormed, hq] using hw
    cases e with
    | resolve url callback => exact (deliver_resolve_facts body s hw url callback).1
    | complete net_error proxy_info =>
      simp [deliver, OnProxyLookupComplete, dcheck, emit, hq, WellFormed]
    | disconnect =>
      simp [deliver, OnConnectionError, emit, hb, hq, WellFormed]
  | cons front rest =>
    cases e with
    | resolve url callback => exact (deliver_resolve_facts body s hw url callback).1
    | complete net_error proxy_info =>
      exact (deliver_completion_facts body hbody s hw (.complete net_error proxy_info) rfl
        front rest hq).1
    | disconnect =>
      exact (deliver_completion_facts body hbody s hw .disconnect rfl front rest hq).1

/-! ## Sequences of events -/

theorem run_cons (body : CallbackBody) (s : ResolveProxyHelper) (e : Event)
    (evs : List Event) : run body s (e :: evs) = run body (deliver body s e) evs := rfl

theorem wellFormed_init : WellFormed init := by
  simp [WellFormed, init]

theorem run_facts (body : CallbackBody) (hbody : NoReentry body) (evs : List Event) :
    ∀ s : ResolveProxyHelper, WellFormed s → InFlightOnly body s evs = true →
      completions evs ≤ (s.pending_requests_ ++ submitted evs).length ∧
      (run body s evs).pending_requests_ =
        (s.pending_requests_ ++ submitted evs).drop (completions evs) ∧
      invokedCallbacks (run body s evs).effects =
        invokedCallbacks s.effects ++
          ((s.pending_requests_ ++ submitted evs).take (completions evs)).filterMap
            (fun r => r.callback) ∧
      dcheckFailures (run body s evs).effects = dcheckFailures s.effects := by
  induction evs with
  | nil => intro s _ _; simp [run, submitted, completions]
  | cons e evs ih =>
    intro s hw hv
    simp only [InFlightOnly, Bool.and_eq_true] at hv
    obtain ⟨hd, hv⟩ := hv
    rw [run_cons]
    have ih := ih _ (deliver_wellFormed body hbody s hw e) hv
    cases e with
    | resolve url callback =>
      obtain ⟨_, hp, hi, hf, _⟩ := deliver_resolve_facts body s hw url callback
      rw [hp, hi, hf] at ih
      simpa [submitted, completions] using ih
    | complete net_error proxy_info =>
      have hb : s.pending_requests_ ≠ [] := (wellFormed_bound_iff s hw).1 hd
      obtain ⟨front, rest, hq⟩ := List.exists_cons_of_ne_nil hb
      obtain ⟨_, hp, hi, hf, _⟩ :=
        deliver_completion_facts body hbody s hw (.complete net_error proxy_info) rfl front rest hq
      rw [hp, hi, hf] at ih
      cases hc : front.callback <;>
        simpa [submitted, completions, hq, hc, List.filterMap_cons] using ih
    | disconnect =>
      have hb : s.pending_requests_ ≠ [] := (wellFormed_bound_iff s hw).1 hd
      obtain ⟨front, rest, hq⟩ := List.exists_cons_of_ne_nil hb
      obtain ⟨_, hp, hi, hf, _⟩ :=
        deliver_completion_facts body hbody s hw .disconnect rfl front rest hq
      rw [hp, hi, hf] at ih
      cases hc : front.callback <;>
        simpa [submitted, completions, hq, hc, List.filterMap_cons] using ih

/-! ## The single-flight check on traces -/

theorem wellFormed_idleOrActive (s : ResolveProxyHelper) (hw : WellFormed s) :
    IdleOrActive s := by
  refine ⟨wellFormed_bound_iff s hw, ?_⟩
  intro _
  unfold WellFormed at hw
  cases hq : s.pending_requests_ with
  | nil => simp [hq] at hw; simp [inFlightUrl, hw]
  | cons front rest => simp [hq] at hw; simp [inFlightUrl, hw, boundFor]

/-! ## Callback runs, for callbacks of any kind -/

theorem invocations_append (effs effs2 : List Effect) :
    invocations (effs ++ effs2) = invocations effs ++ invocations effs2 := by
  simp [invocations, List.filterMap_append]

theorem StartPendingRequest_invocations (s : ResolveProxyHelper) :
    invocations s.StartPendingRequest.effects = invocations s.effects := by
  unfold StartPendingRequest dcheck
  cases s.is_bound <;> cases hq : s.pending_requests_ <;>
    simp [emit, hq, invocations, List.filterMap_append]

theorem ResolveProxy_invocations (url : GURL) (callback : ResolveProxyCallback)
    (s : ResolveProxyHelper) :
    invocations (s.ResolveProxy url callback).effects = invocations s.effects := by
  unfold ResolveProxy
  simp only []
  split
  · rw [StartPendingRequest_invocations]
    unfold dcheck
    split <;> simp [emit, invocations, List.filterMap_append]
  · rfl

theorem reentrantCalls_invocations (calls : List (GURL × ResolveProxyCallback)) :
    ∀ s : ResolveProxyHelper,
      invocations (calls.foldl (fun s call => s.ResolveProxy call.1 call.2) s).effects =
        invocations s.effects := by
  induction calls with
  | nil => intro s; rfl
  | cons call calls ih =>
    intro s
    rw [List.foldl_cons, ih, ResolveProxy_invocations]

theorem OnProxyLookupComplete_cons (body : CallbackBody) (net_error : Int)
    (proxy_info : Option ProxyInfo) (s : ResolveProxyHelper) (front : PendingRequest)
    (rest : List PendingRequest) (hq : s.pending_requests_ = front :: rest) :
    s.OnProxyLookupComplete body net_error proxy_info =
      if (afterCallback body proxy_info s front rest).pending_requests_.isEmpty then
        afterCallback body proxy_info s front rest
      else (afterCallback body proxy_info s front rest).StartPendingRequest := by
  unfold OnProxyLookupComplete afterCallback
  cases hc : front.callback <;> cases proxy_info <;>
    simp [dcheck, emit, hq, hc, proxyString]

theorem afterCallback_invocations (body : CallbackBody) (proxy_info : Option ProxyInfo)
    (s : ResolveProxyHelper) (front : PendingRequest) (rest : List PendingRequest) :
    invocations (afterCallback body proxy_info s front rest).effects =
      invocations s.effects ++ invocations (runEffects front.callback (proxyString proxy_info)) := by
  unfold afterCallback runEffects
  cases front.callback with
  | none => simp [invocations, List.filterMap_append]
  | some c =>
    simp only [Run]
    rw [reentrantCalls_invocations]
    simp [emit, invocations, List.filterMap_append]

theorem OnProxyLookupComplete_invocations (body : CallbackBody) (net_error : Int)
    (proxy_info : Option ProxyInfo) (s : ResolveProxyHelper) (front : PendingRequest)
    (rest : List PendingRequest) (hq : s.pending_requests_ = front :: rest) :
    invocations (s.OnProxyLookupComplete body net_error proxy_info).effects =
      invocations s.effects ++ invocations (runEffects front.callback (proxyString proxy_info)) := by
  rw [OnProxyLookupComplete_cons body net_error proxy_info s front rest hq]
  split
  · exact afterCallback_invocations body proxy_info s front rest
  · rw [StartPendingRequest_invocations]
    exact afterCallback_invocations body proxy_info s front rest

theorem OnProxyLookupComplete_noReentry (body : CallbackBody) (hbody : NoReentry body)
    (net_error : Int) (proxy_info : Option ProxyInfo) (s : ResolveProxyHelper)
    (front : PendingRequest) (rest : List PendingRequest)
    (hq : s.pending_requests_ = front :: rest) :
    s.OnProxyLookupComplete body net_error proxy_info =
      { s with pending_requests_ := rest,
               binding_ := rest.head?.map fun r => boundFor r.url,
               effects := s.effects ++ .close :: runEffects front.callback (proxyString proxy_info)
                 ++ startEffects rest } := by
  cases rest with
  | nil =>
    rw [OnProxyLookupComplete_last body hbody net_error proxy_info s front hq]
    simp [startEffects]
  | cons next rest =>
    rw [OnProxyLookupComplete_more body hbody net_error proxy_info s front next rest hq]
    simp [startEffects]

theorem noReentry_plainCallbacks : NoReentry plainCallbacks := fun _ _ => rfl

/-! ## Lookup starts along a sequence of events -/

theorem OnProxyLookupComplete_null (body : CallbackBody) (net_error : Int)
    (proxy_info : Option ProxyInfo) (s : ResolveProxyHelper) (front : PendingRequest)
    (rest : List PendingRequest) (hq : s.pending_requests_ = front :: rest)
    (hc : front.callback = none) :
    s.OnProxyLookupComplete body net_error proxy_info =
      { s with pending_requests_ := rest,
               binding_ := rest.head?.map fun r => boundFor r.url,
               effects := s.effects ++ .close :: startEffects rest } := by
  rw [OnProxyLookupComplete_cons body net_error proxy_info s front rest hq]
  cases rest <;>
    simp [afterCallback, hc, StartPendingRequest, dcheck, is_bound, emit, boundFor, startEffects]

theorem ResolveProxy_unbound_nonempty (url : GURL) (callback : ResolveProxyCallback)
    (s : ResolveProxyHelper) (older : PendingRequest) (rest : List PendingRequest)
    (hq : s.pending_requests_ = older :: rest) (hb : s.binding_ = none) :
    s.ResolveProxy url callback =
      { s with pending_requests_ := older :: rest ++ [⟨url, callback⟩],
               binding_ := some (boundFor older.url),
               effects := s.effects ++
                 [.dcheckFailed .resolve_size_is_one, .bind, .lookUpProxyForURL older.url] } := by
  simp [ResolveProxy, StartPendingRequest, dcheck, is_bound, emit, hq, hb, boundFor]

theorem StartPendingRequest_bound (s : ResolveProxyHelper) (b : Binding)
    (front : PendingRequest) (rest : List PendingRequest)
    (hq : s.pending_requests_ = front :: rest) (hb : s.binding_ = some b) :
    s.StartPendingRequest =
      { s with binding_ := some (boundFor front.url),
               effects := s.effects ++
                 [.dcheckFailed .start_not_bound, .bind, .lookUpProxyForURL front.url] } := by
  simp [StartPendingRequest, dcheck, is_bound, emit, hq, hb, boundFor]

theorem reentrantCalls_bound (calls : List (GURL × ResolveProxyCallback)) :
    ∀ s : ResolveProxyHelper, s.is_bound = true →
      calls.foldl (fun s call => s.ResolveProxy call.1 call.2) s =
        { s with pending_requests_ :=
            s.pending_requests_ ++ calls.map fun call => ⟨call.1, call.2⟩ } := by
  induction calls with
  | nil => intro s _; simp
  | cons call calls ih =>
    intro s hb
    have hb2 : ({ s with pending_requests_ := s.pending_requests_ ++ [⟨call.1, call.2⟩] } :
        ResolveProxyHelper).is_bound = true := hb
    rw [List.foldl_cons, ResolveProxy_bound call.1 call.2 s hb, ih _ hb2]
    simp

theorem afterCallback_reentrant_last (body : CallbackBody) (proxy_info : Option ProxyInfo)
    (s : ResolveProxyHelper) (front : PendingRequest) (c : Nat) (url : GURL)
    (callback : ResolveProxyCallback) (calls : List (GURL × ResolveProxyCallback))
    (hc : front.callback = some c)
    (hbody : body c (proxyString proxy_info) = (url, callback) :: calls) :
    afterCallback body proxy_info s front [] =
      { s with pending_requests_ :=
                 ⟨url, callback⟩ :: calls.map fun call => ⟨call.1, call.2⟩,
               binding_ := some (boundFor url),
               effects := s.effects ++
                 [.close, .run c (proxyString proxy_info), .bind, .lookUpProxyForURL url] } := by
  unfold afterCallback
  simp only [hc, Run, hbody, List.foldl_cons]
  rw [ResolveProxy_unbound_empty url callback _ rfl rfl,
    reentrantCalls_bound calls _ (by simp [is_bound])]
  simp [emit]

theorem afterCallback_reentrant_more (body : CallbackBody) (proxy_info : Option ProxyInfo)
    (s : ResolveProxyHelper) (front older : PendingRequest) (rest : List PendingRequest)
    (c : Nat) (url : GURL) (callback : ResolveProxyCallback)
    (calls : List (GURL × ResolveProxyCallback)) (hc : front.callback = some c)
    (hbody : body c (proxyString proxy_info) = (url, callback) :: calls) :
    afterCallback body proxy_info s front (older :: rest) =
      { s with pending_requests_ :=
                 older :: rest ++ ⟨url, callback⟩ :: calls.map fun call => ⟨call.1, call.2⟩,
               binding_ := some (boundFor older.url),
               effects := s.effects ++
                 [.close, .run c (proxyString proxy_info), .dcheckFailed .resolve_size_is_one,
                  .bind, .lookUpProxyForURL older.url] } := by
  unfold afterCallback
  simp only [hc, Run, hbody, List.foldl_cons]
  rw [ResolveProxy_unbound_nonempty url callback _ older rest rfl rfl,
    reentrantCalls_bound calls _ (by simp [is_bound])]
  simp [emit]

theorem StartPendingRequest_effects (s : ResolveProxyHelper) :
    ∃ later, s.StartPendingRequest.effects = s.effects ++ later := by
  unfold StartPendingRequest dcheck
  cases s.is_bound <;> cases hq : s.pending_requests_ <;> simp [emit, hq]

theorem ResolveProxy_effects (url : GURL) (callback : ResolveProxyCallback)
    (s : ResolveProxyHelper) :
    ∃ later, (s.ResolveProxy url callback).effects = s.effects ++ later := by
  unfold ResolveProxy
  simp only []
  split
  · obtain ⟨later, h⟩ := StartPendingRequest_effects
      (dcheck ((s.pending_requests_ ++ [(⟨url, callback⟩ : PendingRequest)]).length == 1)
        .resolve_size_is_one
        { s with pending_requests_ := s.pending_requests_ ++ [⟨url, callback⟩] })
    rw [h]
    unfold dcheck
    split
    · exact ⟨later, rfl⟩
    · exact ⟨.dcheckFailed .resolve_size_is_one :: later, by simp [emit]⟩
  · exact ⟨[], by simp⟩

theorem reentrantCalls_effects (calls : List (GURL × ResolveProxyCallback)) :
    ∀ s : ResolveProxyHelper, ∃ later,
      (calls.foldl (fun s call => s.ResolveProxy call.1 call.2) s).effects =
        s.effects ++ later := by
  induction calls with
  | nil => intro s; exact ⟨[], by simp⟩
  | cons call calls ih =>
    intro s
    rw [List.foldl_cons]
    obtain ⟨later, h⟩ := ih (s.ResolveProxy call.1 call.2)
    obtain ⟨first, h2⟩ := ResolveProxy_effects call.1 call.2 s
    exact ⟨first ++ later, by rw [h, h2, List.append_assoc]⟩

/-! ## Completions for callbacks of any kind -/

theorem OnProxyLookupComplete_any (body : CallbackBody) (net_error : Int)
    (proxy_info : Option ProxyInfo) (s : ResolveProxyHelper) (front : PendingRequest)
    (rest : List PendingRequest) (hq : s.pending_requests_ = front :: rest) :
    s.OnProxyLookupComplete body net_error proxy_info =
      { s with pending_requests_ := rest ++ headCalls body front (proxyString proxy_info),
               binding_ := (rest ++ headCalls body front (proxyString proxy_info)).head?.map
                 fun r => boundFor r.url,
               effects := s.effects ++
                 .close :: runEffects front.callback (proxyString proxy_info) ++
                   reentryEffects rest (headCalls body front (proxyString proxy_info)) } := by
  cases hc : front.callback with
  | none =>
    rw [OnProxyLookupComplete_null body net_error proxy_info s front rest hq hc]
    simp [headCalls, hc, runEffects, reentryEffects]
  | some c =>
    rw [OnProxyLookupComplete_cons body net_error proxy_info s front rest hq]
    cases hcalls : body c (proxyString proxy_info) with
    | nil =>
      cases rest <;>
        simp [afterCallback, hc, Run, hcalls, headCalls, runEffects, reentryEffects,
          startEffects, StartPendingRequest, dcheck, is_bound, emit, boundFor]
    | cons call calls =>
      obtain ⟨url, callback⟩ := call
      cases rest with
      | nil =>
        rw [afterCallback_reentrant_last body proxy_info s front c url callback calls hc hcalls]
        simp only [List.isEmpty_cons, Bool.false_eq_true, if_false]
        rw [StartPendingRequest_bound _ (boundFor url) ⟨url, callback⟩
          (calls.map fun call => ⟨call.1, call.2⟩) rfl rfl]
        simp [headCalls, hc, hcalls, runEffects, reentryEffects]
      | cons older rest2 =>
        rw [afterCallback_reentrant_more body proxy_info s front older rest2 c url callback
          calls hc hcalls]
        simp only [List.cons_append, List.isEmpty_cons, Bool.false_eq_true, if_false]
        rw [StartPendingRequest_bound _ (boundFor older.url) older
          (rest2 ++ ⟨url, callback⟩ :: calls.map fun call => ⟨call.1, call.2⟩) rfl rfl]
        simp [headCalls, hc, hcalls, runEffects, reentryEffects]

theorem reentryEffects_invocations (rest nested : List PendingRequest) :
    invocations (reentryEffects rest nested) = [] := by
  cases nested <;> cases rest <;> simp [reentryEffects, startEffects, invocations]

theorem nestedCalls_runEffects (body : CallbackBody) (front : PendingRequest)
    (proxy : String) :
    nestedCalls body (invocations (runEffects front.callback proxy)) =
      headCalls body front proxy := by
  cases hc : front.callback <;> simp [runEffects, invocations, nestedCalls, headCalls, hc]

theorem invokedCallbacks_eq_map (effs : List Effect) :
    invokedCallbacks effs = (invocations effs).map fun r => r.1 := by
  induction effs with
  | nil => rfl
  | cons e effs ih =>
    cases e <;> simp_all [invokedCallbacks, invocations, List.filterMap_cons]

theorem deliver_completion_any (body : CallbackBody) (s : ResolveProxyHelper)
    (hw : WellFormed s) (e : Event) (he : e.isCompletion = true) (front : PendingRequest)
    (rest : List PendingRequest) (hq : s.pending_requests_ = front :: rest) :
    WellFormed (deliver body s e) ∧
    (deliver body s e).pending_requests_ = rest ++ headCalls body front (resultString e) ∧
    invocations (deliver body s e).effects =
      invocations s.effects ++ invocations (runEffects front.callback (resultString e)) ∧
    callsDuring body s e = headCalls body front (resultString e) := by
  have hb : s.binding_ = some (boundFor front.url) := by simpa [WellFormed, hq] using hw
  have key : ∀ (net_error : Int) (proxy_info : Option ProxyInfo) (mark : Effect),
      invocations [mark] = [] →
      WellFormed ((s.emit mark).OnProxyLookupComplete body net_error proxy_info) ∧
      ((s.emit mark).OnProxyLookupComplete body net_error proxy_info).pending_requests_ =
        rest ++ headCalls body front (proxyString proxy_info) ∧
      invocations ((s.emit mark).OnProxyLookupComplete body net_error proxy_info).effects =
        invocations s.effects ++
          invocations (runEffects front.callback (proxyString proxy_info)) := by
    intro net_error proxy_info mark hmark
    rw [OnProxyLookupComplete_any body net_error proxy_info (s.emit mark) front rest hq]
    refine ⟨?_, rfl, ?_⟩
    · cases hL : rest ++ headCalls body front (proxyString proxy_info) <;>
        simp [WellFormed, hL]
    · have hclose : ∀ l, invocations (Effect.close :: l) = invocations l :=
        fun l => by simp [invocations]
      simp only [emit, invocations_append, hmark, hclose, reentryEffects_invocations,
        List.append_nil]
  cases e with
  | resolve url callback => simp [Event.isCompletion] at he
  | complete net_error proxy_info =>
    obtain ⟨h1, h2, h3⟩ := key net_error proxy_info (.answered net_error proxy_info)
      (by simp [invocations])
    refine ⟨h1, h2, h3, ?_⟩
    have h3b : invocations (deliver body s (.complete net_error proxy_info)).effects = _ := h3
    simp only [callsDuring, h3b, List.drop_left, List.nil_append]
    exact nestedCalls_runEffects body front _
  | disconnect =>
    obtain ⟨h1, h2, h3⟩ := key ERR_ABORTED none .disconnected (by simp [invocations])
    have hd : deliver body s .disconnect =
        (s.emit .disconnected).OnProxyLookupComplete body ERR_ABORTED none :=
      OnConnectionError_bound body _ front.url hb
    rw [hd]
    refine ⟨h1, h2, h3, ?_⟩
    simp only [callsDuring, hd, h3, List.drop_left, List.nil_append]
    exact nestedCalls_runEffects body front _

theorem callsDuring_resolve (body : CallbackBody) (s : ResolveProxyHelper) (url : GURL)
    (callback : ResolveProxyCallback) :
    callsDuring body s (.resolve url callback) = [⟨url, callback⟩] := by
  simp [callsDuring, deliver, ResolveProxy_invocations, nestedCalls]

theorem deliver_wellFormed_any (body : CallbackBody) (s : ResolveProxyHelper)
    (hw : WellFormed s) (e : Event) : WellFormed (deliver body s e) := by
  cases hq : s.pending_requests_ with
  | nil =>
    have hb : s.binding_ = none := by simpa [WellFormed, hq] using hw
    cases e with
    | resolve url callback => exact (deliver_resolve_facts body s hw url callback).1
    | complete net_error proxy_info =>
      simp [deliver, OnProxyLookupComplete, dcheck, emit, hq, WellFormed]
    | disconnect =>
      simp [deliver, OnConnectionError, emit, hb, hq, WellFormed]
  | cons front rest =>
    cases e with
    | resolve url callback => exact (deliver_resolve_facts body s hw url callback).1
    | complete net_error proxy_info =>
      exact (deliver_completion_any body s hw (.complete net_error proxy_info) rfl
        front rest hq).1
    | disconnect =>
      exact (deliver_completion_any body s hw .disconnect rfl front rest hq).1

theorem run_wellFormed_any (body : CallbackBody) (evs : List Event) :
    ∀ s : ResolveProxyHelper, WellFormed s → WellFormed (run body s evs) := by
  induction evs with
  | nil => intro s hw; exact hw
  | cons e evs ih =>
    intro s hw
    rw [run_cons]
    exact ih _ (deliver_wellFormed_any body s hw e)

theorem run_facts_any (body : CallbackBody) (evs : List Event) :
    ∀ s : ResolveProxyHelper, WellFormed s → InFlightOnly body s evs = true →
      completions evs ≤ (s.pending_requests_ ++ allSubmitted body s evs).length ∧
      (run body s evs).pending_requests_ =
        (s.pending_requests_ ++ allSubmitted body s evs).drop (completions evs) ∧
      invokedCallbacks (run body s evs).effects =
        invokedCallbacks s.effects ++
          ((s.pending_requests_ ++ allSubmitted body s evs).take (completions evs)).filterMap
            (fun r => r.callback) ∧
      completedRequests body s evs ++ (run body s evs).pending_requests_ =
        s.pending_requests_ ++ allSubmitted body s evs ∧
      (completedRequests body s evs).length = completions evs := by
  induction evs with
  | nil => intro s _ _; simp [run, allSubmitted, completions, completedRequests]
  | cons e evs ih =>
    intro s hw hv
    simp only [InFlightOnly, Bool.and_eq_true] at hv
    obtain ⟨hd, hv⟩ := hv
    rw [run_cons]
    have ih := ih _ (deliver_wellFormed_any body s hw e) hv
    cases e with
    | resolve url callback =>
      obtain ⟨_, hp, hi, _⟩ := deliver_resolve_facts body s hw url callback
      rw [hp, hi] at ih
      simpa [allSubmitted, callsDuring_resolve, completions, completedRequests,
        Event.isCompletion] using ih
    | complete net_error proxy_info =>
      have hb : s.pending_requests_ ≠ [] := (wellFormed_bound_iff s hw).1 hd
      obtain ⟨front, rest, hq⟩ := List.exists_cons_of_ne_nil hb
      obtain ⟨_, hp, hi, hcalls⟩ :=
        deliver_completion_any body s hw (.complete net_error proxy_info) rfl front rest hq
      have hic : invokedCallbacks (deliver body s (.complete net_error proxy_info)).effects =
          invokedCallbacks s.effects ++ front.callback.toList := by
        rw [invokedCallbacks_eq_map, hi, invokedCallbacks_eq_map]
        cases front.callback <;> simp [runEffects, invocations]
      rw [hp, hic] at ih
      cases hc : front.callback <;>
        simpa [allSubmitted, hcalls, completions, completedRequests, Event.isCompletion, hq, hc,
          List.filterMap_cons] using ih
    | disconnect =>
      have hb : s.pending_requests_ ≠ [] := (wellFormed_bound_iff s hw).1 hd
      obtain ⟨front, rest, hq⟩ := List.exists_cons_of_ne_nil hb
      obtain ⟨_, hp, hi, hcalls⟩ :=
        deliver_completion_any body s hw .disconnect rfl front rest hq
      have hic : invokedCallbacks (deliver body s .disconnect).effects =
          invokedCallbacks s.effects ++ front.callback.toList := by
        rw [invokedCallbacks_eq_map, hi, invokedCallbacks_eq_map]
        cases front.callback <;> simp [runEffects, invocations]
      rw [hp, hic] at ih
      cases hc : front.callback <;>
        simpa [allSubmitted, hcalls, completions, completedRequests, Event.isCompletion, hq, hc,
          List.filterMap_cons] using ih

theorem nestedCalls_noReentry (body : CallbackBody) (hbody : NoReentry body)
    (runs : List (Nat × String)) : nestedCalls body runs = [] := by
  induction runs with
  | nil => rfl
  | cons r runs ih =>
    obtain ⟨c, proxy⟩ := r
    simp [nestedCalls, hbody c proxy, ih]

theorem allSubmitted_noReentry (body : CallbackBody) (hbody : NoReentry body)
    (evs : List Event) : ∀ s : ResolveProxyHelper, allSubmitted body s evs = submitted evs := by
  induction evs with
  | nil => intro s; rfl
  | cons e evs ih =>
    intro s
    cases e <;>
      simp [allSubmitted, callsDuring, nestedCalls_noReentry body hbody, submitted, ih]

theorem ResolveProxy_wellFormed_unbound (url : GURL) (callback : ResolveProxyCallback)
    (s : ResolveProxyHelper) (hb : s.binding_ = none) :
    WellFormed (s.ResolveProxy url callback) := by
  cases hq : s.pending_requests_ with
  | nil => rw [ResolveProxy_unbound_empty url callback s hq hb]; simp [WellFormed]
  | cons older rest =>
    rw [ResolveProxy_unbound_nonempty url callback s older rest hq hb]; simp [WellFormed]

theorem reentrantCalls_wellFormed (body : CallbackBody)
    (calls : List (GURL × ResolveProxyCallback)) :
    ∀ s : ResolveProxyHelper, WellFormed s →
      WellFormed (calls.foldl (fun s call => s.ResolveProxy call.1 call.2) s) := by
  induction calls with
  | nil => intro s hw; exact hw
  | cons call calls ih =>
    intro s hw
    rw [List.foldl_cons]
    exact ih _ (deliver_resolve_facts body s hw call.1 call.2).1

/-- C1 (FIFO exactly-once delivery).  For every sequence of `ResolveProxy`
calls, answers and disconnects, each answer and disconnect delivered while a
lookup is in flight, and for callbacks of any kind: at most as many
completions were delivered as requests were submitted, and the callbacks run
so far are exactly the callbacks of the first `k` submitted requests, in
submission order, one run per request, where `k` is the number of completions
delivered; a request with a null callback contributes no run.  The submitted
requests are all requests passed to `ResolveProxy`, by callers and by
callbacks during their run; without calls from callbacks they are the
requests of the `resolve` events. -/
theorem fifo_exactly_once_delivery (body : CallbackBody) (evs : List Event)
    (hv : InFlightOnly body init evs = true) :
    completions evs ≤ (allSubmitted body init evs).length ∧
    invokedCallbacks (run body init evs).effects =
      ((allSubmitted body init evs).take (completions evs)).filterMap (fun r => r.callback) ∧
    (NoReentry body → allSubmitted body init evs = submitted evs) := by
  obtain ⟨hk, _, hi, _⟩ := run_facts_any body evs init wellFormed_init hv
  refine ⟨by simpa [init] using hk, ?_, fun hbody => allSubmitted_noReentry body hbody evs init⟩
  simpa [init, invokedCallbacks] using hi

/-- Witness of C1: two requests; callback 1 submits a third request while it
runs; all three are completed and their callbacks run in submission order. -/
theorem fifo_exactly_once_delivery_witness :
    InFlightOnly reentrantOnce init reentrantEvents = true ∧
    allSubmitted reentrantOnce init reentrantEvents =
      [⟨"http://a/", some 1⟩, ⟨"http://b/", some 2⟩, ⟨"http://z/", some 9⟩] ∧
    invokedCallbacks (run reentrantOnce init reentrantEvents).effects = [1, 2, 9] ∧
    completions reentrantEvents ≤ (allSubmitted reentrantOnce init reentrantEvents).length ∧
    invokedCallbacks (run reentrantOnce init reentrantEvents).effects =
      ((allSubmitted reentrantOnce init reentrantEvents).take
        (completions reentrantEvents)).filterMap (fun r => r.callback) ∧
    (NoReentry reentrantOnce → allSubmitted reentrantOnce init reentrantEvents =
      submitted reentrantEvents) :=
  ⟨by decide, by decide, by decide,
    fifo_exactly_once_delivery reentrantOnce reentrantEvents (by decide)⟩

/-- C3 (idle/active invariant).  For callbacks of any kind: in the initial
state and after every `ResolveProxy` call, answer and disconnect delivered to
the helper, the binding is bound if and only if the pending queue is
non-empty, and whenever it is bound the URL of the lookup in flight is the URL
of the queue's head request.  The same holds after every `ResolveProxy` call
that a callback makes while it runs: the callback starts on a closed binding,
and after each of its calls the invariant holds. -/
theorem idle_or_active_invariant (body : CallbackBody) (evs : List Event) :
    (((run body init evs).is_bound = true ↔ (run body init evs).pending_requests_ ≠ []) ∧
      ((run body init evs).is_bound = true →
        inFlightUrl (run body init evs) =
          (run body init evs).pending_requests_.head?.map fun r => r.url)) ∧
    (∀ (s : ResolveProxyHelper) (calls : List (GURL × ResolveProxyCallback)),
      s.is_bound = false → calls ≠ [] →
      IdleOrActive (calls.foldl (fun s call => s.ResolveProxy call.1 call.2) s)) := by
  refine ⟨wellFormed_idleOrActive _ (run_wellFormed_any body evs init wellFormed_init), ?_⟩
  intro s calls hb hne
  obtain ⟨call, calls, rfl⟩ := List.exists_cons_of_ne_nil hne
  have hb2 : s.binding_ = none := by simpa [is_bound] using hb
  rw [List.foldl_cons]
  exact wellFormed_idleOrActive _
    (reentrantCalls_wellFormed body calls _ (ResolveProxy_wellFormed_unbound call.1 call.2 s hb2))

/-- Witness of C3: the state after events in which a callback submitted a
request, and a nested call made on a closed binding with a request already
queued. -/
theorem idle_or_active_invariant_witness :
    (((run reentrantOnce init reentrantAnswer).is_bound = true ↔
        (run reentrantOnce init reentrantAnswer).pending_requests_ ≠ []) ∧
      ((run reentrantOnce init reentrantAnswer).is_bound = true →
        inFlightUrl (run reentrantOnce init reentrantAnswer) =
          (run reentrantOnce init reentrantAnswer).pending_requests_.head?.map
            fun r => r.url)) ∧
    IdleOrActive ([("http://z/", some 9)].foldl (fun s call => s.ResolveProxy call.1 call.2)
      { init with pending_requests_ := [⟨"http://b/", some 2⟩] }) :=
  ⟨(idle_or_active_invariant reentrantOnce reentrantAnswer).1,
    (idle_or_active_invariant reentrantOnce reentrantAnswer).2
      { init with pending_requests_ := [⟨"http://b/", some 2⟩] } [("http://z/", some 9)]
      rfl (by simp)⟩

/-- C4 (result formatting).  For every completion
`OnProxyLookupComplete(net_error, proxy_info)` on a non-empty queue whose head
has a non-null callback `c`, whatever the callbacks do, the completion adds
exactly one callback run to the trace: `c` with the PAC string of `proxy_info`
when it is present, and `c` with the empty string when it is absent. -/
theorem result_formatting (body : CallbackBody) (net_error : Int)
    (proxy_info : Option ProxyInfo) (s : ResolveProxyHelper) (front : PendingRequest)
    (rest : List PendingRequest) (c : Nat) (hq : s.pending_requests_ = front :: rest)
    (hc : front.callback = some c) :
    invocations (s.OnProxyLookupComplete body net_error proxy_info).effects =
      invocations s.effects ++
        [(c, match proxy_info with
             | some info => info.ToPacString
             | none => "")] := by
  rw [OnProxyLookupComplete_invocations body net_error proxy_info s front rest hq, hc]
  cases proxy_info <;> simp [runEffects, invocations, proxyString]

/-- Witness of C4: the two examples of the specification, on a helper with one
request in flight: `OK` with a proxy info of PAC string `"PROXY 9.9.9.9:80"`
delivers that string, and `ERR_FAILED` without proxy info delivers `""`. -/
theorem result_formatting_witness :
    invocations ((init.ResolveProxy "http://a/" (some 1)).OnProxyLookupComplete plainCallbacks
        OK (some ⟨"PROXY 9.9.9.9:80"⟩)).effects = [(1, "PROXY 9.9.9.9:80")] ∧
    invocations ((init.ResolveProxy "http://a/" (some 1)).OnProxyLookupComplete plainCallbacks
        ERR_FAILED none).effects = [(1, "")] :=
  ⟨result_formatting plainCallbacks OK (some ⟨"PROXY 9.9.9.9:80"⟩)
      (init.ResolveProxy "http://a/" (some 1)) ⟨"http://a/", some 1⟩ [] 1 rfl rfl,
    result_formatting plainCallbacks ERR_FAILED none
      (init.ResolveProxy "http://a/" (some 1)) ⟨"http://a/", some 1⟩ [] 1 rfl rfl⟩

/-- C5, counterexample to the claim as stated.  One request with callback 1 is
in flight; the service reports the non-success code `ERR_FAILED` together with
a proxy info of PAC string `"PROXY 9.9.9.9:80"`.  The callback receives that
string, not the empty string: `OnProxyLookupComplete` never reads `net_error`. -/
theorem lookup_error_collapse_counterexample :
    ERR_FAILED ≠ OK ∧
    invocations ((init.ResolveProxy "http://a/" (some 1)).OnProxyLookupComplete plainCallbacks
        ERR_FAILED (some ⟨"PROXY 9.9.9.9:80"⟩)).effects = [(1, "PROXY 9.9.9.9:80")] := by
  decide

/-- C5 as amended (lookup-error collapse).  For every completion in which the
service reports a non-success error code and no proxy info, on a queue
`front :: rest` and for callbacks of any kind: the callback of `front` is run
with the empty string if it is not null, and no other callback is run; and
processing continues with the next request: the queue is `rest` followed by
the requests the callback submitted, and the lookup in flight afterwards is
the one of the new head, if there is one.  The trace added is the close, the
run, and the lookup starts; when the callback submits nothing, these are
exactly the start of the lookup of the head of `rest`, if any. -/
theorem lookup_error_collapse (body : CallbackBody) (net_error : Int)
    (_hne : net_error ≠ OK) (s : ResolveProxyHelper)
    (front : PendingRequest) (rest : List PendingRequest)
    (hq : s.pending_requests_ = front :: rest) :
    invocations (s.OnProxyLookupComplete body net_error none).effects =
      invocations s.effects ++ invocations (runEffects front.callback "") ∧
    (s.OnProxyLookupComplete body net_error none).pending_requests_ =
      rest ++ headCalls body front "" ∧
    inFlightUrl (s.OnProxyLookupComplete body net_error none) =
      ((s.OnProxyLookupComplete body net_error none).pending_requests_.head?.map
        fun r => r.url) ∧
    (s.OnProxyLookupComplete body net_error none).effects =
      s.effects ++ .close :: runEffects front.callback "" ++
        reentryEffects rest (headCalls body front "") ∧
    (headCalls body front "" = [] →
      (s.OnProxyLookupComplete body net_error none).effects =
        s.effects ++ .close :: runEffects front.callback "" ++ startEffects rest ∧
      (s.OnProxyLookupComplete body net_error none).pending_requests_ = rest ∧
      inFlightUrl (s.OnProxyLookupComplete body net_error none) =
        rest.head?.map fun r => r.url) := by
  have h := OnProxyLookupComplete_any body net_error none s front rest hq
  have hp : proxyString none = "" := rfl
  rw [hp] at h
  refine ⟨?_, ?_, ?_, ?_, ?_⟩
  · rw [OnProxyLookupComplete_invocations body net_error none s front rest hq, hp]
  · rw [h]
  · rw [h]
    cases rest ++ headCalls body front "" <;> simp [inFlightUrl, boundFor]
  · rw [h]
  · intro hcalls
    rw [h, hcalls]
    cases rest <;> simp [reentryEffects, inFlightUrl, boundFor]

/-- Witness of C5 as amended: two requests queued, `ERR_FAILED` without proxy
info for the first, whose callback submits nothing; and the same with a
callback that submits a request while it runs. -/
theorem lookup_error_collapse_witness :
    ERR_FAILED ≠ OK ∧
    (run plainCallbacks init twoRequests).pending_requests_ =
      [⟨"http://a/", some 1⟩, ⟨"http://b/", some 2⟩] ∧
    headCalls plainCallbacks ⟨"http://a/", some 1⟩ "" = [] ∧
    (((run plainCallbacks init twoRequests).OnProxyLookupComplete plainCallbacks
        ERR_FAILED none).effects =
      (run plainCallbacks init twoRequests).effects ++
        .close :: runEffects (some 1) "" ++ startEffects [⟨"http://b/", some 2⟩] ∧
    ((run plainCallbacks init twoRequests).OnProxyLookupComplete plainCallbacks
        ERR_FAILED none).pending_requests_ = [⟨"http://b/", some 2⟩] ∧
    inFlightUrl ((run plainCallbacks init twoRequests).OnProxyLookupComplete
        plainCallbacks ERR_FAILED none) = some "http://b/") ∧
    invocations ((run reentrantOnce init twoRequests).OnProxyLookupComplete
        reentrantOnce ERR_FAILED none).effects = [(1, "")] ∧
    ((run reentrantOnce init twoRequests).OnProxyLookupComplete
        reentrantOnce ERR_FAILED none).pending_requests_ =
      [⟨"http://b/", some 2⟩, ⟨"http://z/", some 9⟩] :=
  ⟨by decide, rfl, rfl,
    (lookup_error_collapse plainCallbacks ERR_FAILED (by decide)
      (run plainCallbacks init twoRequests)
      ⟨"http://a/", some 1⟩ [⟨"http://b/", some 2⟩] rfl).2.2.2.2 rfl,
    (lookup_error_collapse reentrantOnce ERR_FAILED (by decide)
      (run reentrantOnce init twoRequests)
      ⟨"http://a/", some 1⟩ [⟨"http://b/", some 2⟩] rfl).1,
    (lookup_error_collapse reentrantOnce ERR_FAILED (by decide)
      (run reentrantOnce init twoRequests)
      ⟨"http://a/", some 1⟩ [⟨"http://b/", some 2⟩] rfl).2.1⟩

/-- C6 (teardown with a lookup in flight), the code at the failing input.
Three requests are queued and the lookup of the first is in flight;
`owned_self_` is null, so nothing keeps the helper alive.  Destroying the
helper fails the destructor's own assertion `DCHECK(!binding_.is_bound())`
(line 27), although the next statement clears pending requests, which exist
only while the binding is bound.  Apart from the assertion the destruction
does what the claim says: no callback is run and the binding is released. -/
theorem teardown_in_flight_fails_assertion :
    (run plainCallbacks init threeRequests).pending_requests_.length = 3 ∧
    (run plainCallbacks init threeRequests).is_bound = true ∧
    (run plainCallbacks init threeRequests).owned_self_ = false ∧
    dcheckFailures (run plainCallbacks init threeRequests).destroy.effects =
      [Dcheck.dtor_not_bound] ∧
    invokedCallbacks (run plainCallbacks init threeRequests).destroy.effects = [] ∧
    (run plainCallbacks init threeRequests).destroy.is_bound = false := by
  decide

/-- C7 (teardown discards silently).  For every state of the helper, whatever
the number of queued requests, destruction empties the pending queue, runs no
callback and starts no lookup: all it adds to the trace are failed
assertions. -/
theorem teardown_discards_silently (s : ResolveProxyHelper) :
    s.destroy.pending_requests_ = [] ∧
    invokedCallbacks s.destroy.effects = invokedCallbacks s.effects ∧
    lookupStarts s.destroy.effects = lookupStarts s.effects ∧
    ∃ ds : List Dcheck, s.destroy.effects = s.effects ++ ds.map Effect.dcheckFailed := by
  refine ⟨rfl, ?_, ?_, ?_⟩
  · cases hb : s.binding_ <;> cases ho : s.owned_self_ <;>
      simp [destroy, dcheck, hb, ho, emit, is_bound, invokedCallbacks, List.filterMap_append]
  · cases hb : s.binding_ <;> cases ho : s.owned_self_ <;>
      simp [destroy, dcheck, hb, ho, emit, is_bound, lookupStarts, List.filterMap_append]
  · cases hb : s.binding_ <;> cases ho : s.owned_self_
    · exact ⟨[], by simp [destroy, dcheck, hb, ho, emit, is_bound]⟩
    · exact ⟨[.dtor_not_owned_self], by simp [destroy, dcheck, hb, ho, emit, is_bound]⟩
    · exact ⟨[.dtor_not_bound], by simp [destroy, dcheck, hb, ho, emit, is_bound]⟩
    · exact ⟨[.dtor_not_owned_self, .dtor_not_bound],
        by simp [destroy, dcheck, hb, ho, emit, is_bound]⟩

/-- C9 (idle-to-active dispatch).  For every URL and callback, `ResolveProxy`
called on an idle helper (empty queue, binding not bound) adds to the trace
the binding of the pipe and exactly one lookup start, for that URL, runs no
callback, and leaves the helper active: the request is the only element of the
queue, the binding is bound and the lookup in flight is the one for that URL. -/
theorem idle_to_active_dispatch (url : GURL) (callback : ResolveProxyCallback)
    (s : ResolveProxyHelper) (hi : Idle s) :
    (s.ResolveProxy url callback).effects = s.effects ++ [.bind, .lookUpProxyForURL url] ∧
    lookupStarts (s.ResolveProxy url callback).effects = lookupStarts s.effects ++ [url] ∧
    invokedCallbacks (s.ResolveProxy url callback).effects = invokedCallbacks s.effects ∧
    (s.ResolveProxy url callback).pending_requests_ = [⟨url, callback⟩] ∧
    (s.ResolveProxy url callback).is_bound = true ∧
    inFlightUrl (s.ResolveProxy url callback) = some url := by
  obtain ⟨hq, hb⟩ := hi
  have hb2 : s.binding_ = none := by simpa [is_bound] using hb
  rw [ResolveProxy_unbound_empty url callback s hq hb2]
  simp [lookupStarts, invokedCallbacks, List.filterMap_append, is_bound, inFlightUrl, boundFor]

/-- Witness of C9: the first request on a fresh helper. -/
theorem idle_to_active_dispatch_witness :
    Idle init ∧
    (init.ResolveProxy "http://a/" (some 1)).effects =
      init.effects ++ [.bind, .lookUpProxyForURL "http://a/"] ∧
    lookupStarts (init.ResolveProxy "http://a/" (some 1)).effects =
      lookupStarts init.effects ++ ["http://a/"] ∧
    invokedCallbacks (init.ResolveProxy "http://a/" (some 1)).effects =
      invokedCallbacks init.effects ∧
    (init.ResolveProxy "http://a/" (some 1)).pending_requests_ = [⟨"http://a/", some 1⟩] ∧
    (init.ResolveProxy "http://a/" (some 1)).is_bound = true ∧
    inFlightUrl (init.ResolveProxy "http://a/" (some 1)) = some "http://a/" :=
  ⟨⟨rfl, rfl⟩, idle_to_active_dispatch "http://a/" (some 1) init ⟨rfl, rfl⟩⟩

/-- C13 (invariant violations are unreachable).  For every sequence of
top-level `ResolveProxy` calls, answers and disconnects, each answer and
disconnect delivered while a lookup is in flight (callbacks not calling back
into the helper), no assertion of the file fails: the trace has no failed
`DCHECK`, neither the one of `ResolveProxy`, nor the two of
`StartPendingRequest`, nor the one of `OnProxyLookupComplete`. -/
theorem no_assertion_fails (body : CallbackBody) (hbody : NoReentry body)
    (evs : List Event) (hv : InFlightOnly body init evs = true) :
    dcheckFailures (run body init evs).effects = [] ∧
    ∀ d : Dcheck, Effect.dcheckFailed d ∉ (run body init evs).effects := by
  have h : dcheckFailures (run body init evs).effects = [] := by
    simpa [init, dcheckFailures] using (run_facts body hbody evs init wellFormed_init hv).2.2.2
  refine ⟨h, fun d hd => ?_⟩
  have hm : d ∈ dcheckFailures (run body init evs).effects := by
    unfold dcheckFailures
    exact List.mem_filterMap.2 ⟨_, hd, rfl⟩
  rw [h] at hm
  exact List.not_mem_nil _ hm

/-- Witness of C13: three requests, an answer and a disconnect. -/
theorem no_assertion_fails_witness :
    NoReentry plainCallbacks ∧ InFlightOnly plainCallbacks init sampleEvents = true ∧
    dcheckFailures (run plainCallbacks init sampleEvents).effects = [] ∧
    ∀ d : Dcheck, Effect.dcheckFailed d ∉ (run plainCallbacks init sampleEvents).effects :=
  ⟨noReentry_plainCallbacks, by decide,
    no_assertion_fails plainCallbacks noReentry_plainCallbacks sampleEvents (by decide)⟩

/-- C17 (request conservation).  In every state reached by `ResolveProxy`
calls, answers and disconnects, each answer and disconnect delivered while a
lookup is in flight, for callbacks of any kind and without destruction: the
requests completed so far, in completion order, followed by the pending queue
are the submitted requests in submission order, so no request is lost,
duplicated or reordered; one request is completed per answer or disconnect;
and the queue length is the number of `ResolveProxy` calls minus the number of
completions.  The submitted requests are all requests passed to
`ResolveProxy`, by callers and by callbacks during their run; without calls
from callbacks they are the requests of the `resolve` events. -/
theorem request_conservation (body : CallbackBody) (evs : List Event)
    (hv : InFlightOnly body init evs = true) :
    completedRequests body init evs ++ (run body init evs).pending_requests_ =
      allSubmitted body init evs ∧
    (completedRequests body init evs).length = completions evs ∧
    (run body init evs).pending_requests_.length + completions evs =
      (allSubmitted body init evs).length ∧
    (run body init evs).pending_requests_.length =
      (allSubmitted body init evs).length - completions evs ∧
    (NoReentry body → allSubmitted body init evs = submitted evs) := by
  obtain ⟨_, _, _, h1, h2⟩ := run_facts_any body evs init wellFormed_init hv
  have h1 : completedRequests body init evs ++ (run body init evs).pending_requests_ =
      allSubmitted body init evs := by simpa [init] using h1
  have h3 : (run body init evs).pending_requests_.length + completions evs =
      (allSubmitted body init evs).length := by
    rw [← h1, List.length_append, h2]
    omega
  exact ⟨h1, h2, h3, by omega, fun hbody => allSubmitted_noReentry body hbody evs init⟩

/-- Witness of C17: two requests and an answer to the first, whose callback
submits a third request; one request is completed and two are pending. -/
theorem request_conservation_witness :
    InFlightOnly reentrantOnce init reentrantAnswer = true ∧
    completedRequests reentrantOnce init reentrantAnswer = [⟨"http://a/", some 1⟩] ∧
    (run reentrantOnce init reentrantAnswer).pending_requests_ =
      [⟨"http://b/", some 2⟩, ⟨"http://z/", some 9⟩] ∧
    completedRequests reentrantOnce init reentrantAnswer ++
      (run reentrantOnce init reentrantAnswer).pending_requests_ =
        allSubmitted reentrantOnce init reentrantAnswer ∧
    (completedRequests reentrantOnce init reentrantAnswer).length =
      completions reentrantAnswer ∧
    (run reentrantOnce init reentrantAnswer).pending_requests_.length +
      completions reentrantAnswer = (allSubmitted reentrantOnce init reentrantAnswer).length ∧
    (run reentrantOnce init reentrantAnswer).pending_requests_.length =
      (allSubmitted reentrantOnce init reentrantAnswer).length - completions reentrantAnswer ∧
    (NoReentry reentrantOnce → allSubmitted reentrantOnce init reentrantAnswer =
      submitted reentrantAnswer) :=
  ⟨by decide, by decide, by decide,
    request_conservation reentrantOnce reentrantAnswer (by decide)⟩

/-- C14 (null callback skipped).  For every completion on a queue
`front :: rest` whose head has a null callback, whatever the callbacks do: no
callback is run; the binding is closed, the head is popped and the lookup of
the next queued request is started if there is one.  This is what a completion
does for a head with a non-null callback `c` (not calling back into the
helper), except for the run of `c`: same queue, same binding, and the same
trace with the run of `c` between the close and the start. -/
theorem null_callback_skipped (body : CallbackBody) (net_error : Int)
    (proxy_info : Option ProxyInfo) (s : ResolveProxyHelper) (front : PendingRequest)
    (rest : List PendingRequest) (hq : s.pending_requests_ = front :: rest)
    (hc : front.callback = none) :
    invocations (s.OnProxyLookupComplete body net_error proxy_info).effects =
      invocations s.effects ∧
    (s.OnProxyLookupComplete body net_error proxy_info).effects =
      s.effects ++ .close :: startEffects rest ∧
    (s.OnProxyLookupComplete body net_error proxy_info).pending_requests_ = rest ∧
    inFlightUrl (s.OnProxyLookupComplete body net_error proxy_info) =
      (rest.head?.map fun r => r.url) ∧
    (∀ c : Nat, NoReentry body →
      (OnProxyLookupComplete body net_error proxy_info
          { s with pending_requests_ := ⟨front.url, some c⟩ :: rest }).pending_requests_ =
        (s.OnProxyLookupComplete body net_error proxy_info).pending_requests_ ∧
      (OnProxyLookupComplete body net_error proxy_info
          { s with pending_requests_ := ⟨front.url, some c⟩ :: rest }).binding_ =
        (s.OnProxyLookupComplete body net_error proxy_info).binding_ ∧
      (OnProxyLookupComplete body net_error proxy_info
          { s with pending_requests_ := ⟨front.url, some c⟩ :: rest }).effects =
        s.effects ++ .close :: .run c (proxyString proxy_info) :: startEffects rest) := by
  have h := OnProxyLookupComplete_null body net_error proxy_info s front rest hq hc
  refine ⟨?_, ?_, ?_, ?_, ?_⟩
  · rw [OnProxyLookupComplete_invocations body net_error proxy_info s front rest hq, hc]
    simp [runEffects, invocations]
  · rw [h]
  · rw [h]
  · rw [h]
    cases rest <;> simp [inFlightUrl, boundFor]
  · intro c hbody
    rw [h, OnProxyLookupComplete_noReentry body hbody net_error proxy_info
      { s with pending_requests_ := ⟨front.url, some c⟩ :: rest } ⟨front.url, some c⟩ rest rfl]
    simp [runEffects]

/-- Witness of C14: after three requests and one answer the head is the
request with the null callback; its completion runs nothing and starts the
lookup of the third request. -/
theorem null_callback_skipped_witness :
    (run plainCallbacks init nullHeadEvents).pending_requests_ =
      [⟨"http://b/", none⟩, ⟨"http://c/", some 3⟩] ∧
    invocations ((run plainCallbacks init nullHeadEvents).OnProxyLookupComplete
        plainCallbacks OK none).effects =
      invocations (run plainCallbacks init nullHeadEvents).effects ∧
    ((run plainCallbacks init nullHeadEvents).OnProxyLookupComplete
        plainCallbacks OK none).effects =
      (run plainCallbacks init nullHeadEvents).effects ++
        [.close, .bind, .lookUpProxyForURL "http://c/"] :=
  ⟨rfl,
    (null_callback_skipped plainCallbacks OK none (run plainCallbacks init nullHeadEvents)
      ⟨"http://b/", none⟩ [⟨"http://c/", some 3⟩] rfl rfl).1,
    (null_callback_skipped plainCallbacks OK none (run plainCallbacks init nullHeadEvents)
      ⟨"http://b/", none⟩ [⟨"http://c/", some 3⟩] rfl rfl).2.1⟩

/-- C15 (effect order inside a completion).  For every completion on a queue
`front :: rest`.  If the head has a callback `c`, whatever the callbacks do:
`c` is run on the state in which the binding is already closed and the head
already removed from the queue, and what the completion adds to the trace
begins with the close, then the run of `c`; everything else, the start of the
next lookup included, comes after the run.  If no callback calls back into the
helper, the completion adds exactly the close, the run of the head's callback
(if not null) and the start of the next request's lookup (if any), in this
order. -/
theorem effect_order_in_completion (body : CallbackBody) (net_error : Int)
    (proxy_info : Option ProxyInfo) (s : ResolveProxyHelper) (front : PendingRequest)
    (rest : List PendingRequest) (hq : s.pending_requests_ = front :: rest) :
    (∀ c : Nat, front.callback = some c →
      s.OnProxyLookupComplete body net_error proxy_info =
        (if (Run body c (proxyString proxy_info)
              { s with pending_requests_ := rest, binding_ := none,
                       effects := s.effects ++ [.close] }).pending_requests_.isEmpty then
          Run body c (proxyString proxy_info)
            { s with pending_requests_ := rest, binding_ := none,
                     effects := s.effects ++ [.close] }
        else
          (Run body c (proxyString proxy_info)
            { s with pending_requests_ := rest, binding_ := none,
                     effects := s.effects ++ [.close] }).StartPendingRequest) ∧
      ∃ later, (s.OnProxyLookupComplete body net_error proxy_info).effects =
        s.effects ++ .close :: .run c (proxyString proxy_info) :: later) ∧
    (NoReentry body →
      (s.OnProxyLookupComplete body net_error proxy_info).effects =
        s.effects ++ .close :: runEffects front.callback (proxyString proxy_info) ++
          startEffects rest) := by
  constructor
  · intro c hc
    have h := OnProxyLookupComplete_cons body net_error proxy_info s front rest hq
    simp only [afterCallback, hc] at h
    refine ⟨h, ?_⟩
    rw [h]
    obtain ⟨calls, hcalls⟩ := reentrantCalls_effects (body c (proxyString proxy_info))
      (emit (.run c (proxyString proxy_info))
        { s with pending_requests_ := rest, binding_ := none,
                 effects := s.effects ++ [.close] })
    split
    · exact ⟨calls, by simp only [Run]; rw [hcalls]; simp [emit]⟩
    · obtain ⟨start, hstart⟩ := StartPendingRequest_effects
        (Run body c (proxyString proxy_info)
          { s with pending_requests_ := rest, binding_ := none,
                   effects := s.effects ++ [.close] })
      refine ⟨calls ++ start, ?_⟩
      rw [hstart]
      simp only [Run]
      rw [hcalls]
      simp [emit]
  · intro hbody
    rw [OnProxyLookupComplete_noReentry body hbody net_error proxy_info s front rest hq]

/-- Witness of C15: the answer to the first of three requests adds the close,
the run of callback 1 and the start of the second lookup, in this order. -/
theorem effect_order_in_completion_witness :
    (run plainCallbacks init threeRequests).pending_requests_ =
      [⟨"http://a/", some 1⟩, ⟨"http://b/", none⟩, ⟨"http://c/", some 3⟩] ∧
    NoReentry plainCallbacks ∧
    ((run plainCallbacks init threeRequests).OnProxyLookupComplete plainCallbacks OK
        (some ⟨"DIRECT"⟩)).effects =
      (run plainCallbacks init threeRequests).effects ++
        [.close, .run 1 "DIRECT", .bind, .lookUpProxyForURL "http://b/"] :=
  ⟨rfl, noReentry_plainCallbacks,
    (effect_order_in_completion plainCallbacks OK (some ⟨"DIRECT"⟩)
      (run plainCallbacks init threeRequests) ⟨"http://a/", some 1⟩
      [⟨"http://b/", none⟩, ⟨"http://c/", some 3⟩] rfl).2 noReentry_plainCallbacks⟩

/-- C16 (re-entrant `ResolveProxy`).  A completion on a queue `front :: rest`
whose head has a callback `c` that, run on the result string, calls
`ResolveProxy(url, callback)` on the helper (and possibly makes further calls).
When `c` returns the queue is `rest` followed by the new requests, so it is
not empty, and the binding is bound: the nested call found it closed and
started a lookup.  `OnProxyLookupComplete` then calls `StartPendingRequest`,
whose assertion `DCHECK(!binding_.is_bound())` fails, and a second lookup is
started for the same URL.  If `rest` is empty, both lookups are for the new
request.  If a request `older` was already queued, the assertion
`DCHECK_EQ(1u, pending_requests_.size())` of the nested `ResolveProxy` fails
as well, and both lookups are for `older`, not for the new request. -/
theorem reentrant_resolve_breaks_single_flight (body : CallbackBody) (net_error : Int)
    (proxy_info : Option ProxyInfo) (s : ResolveProxyHelper) (front : PendingRequest)
    (rest : List PendingRequest) (c : Nat) (url : GURL) (callback : ResolveProxyCallback)
    (calls : List (GURL × ResolveProxyCallback))
    (hq : s.pending_requests_ = front :: rest) (hc : front.callback = some c)
    (hbody : body c (proxyString proxy_info) = (url, callback) :: calls) :
    (afterCallback body proxy_info s front rest).pending_requests_ =
      rest ++ ⟨url, callback⟩ :: calls.map (fun call => ⟨call.1, call.2⟩) ∧
    (afterCallback body proxy_info s front rest).is_bound = true ∧
    (s.OnProxyLookupComplete body net_error proxy_info).pending_requests_ =
      rest ++ ⟨url, callback⟩ :: calls.map (fun call => ⟨call.1, call.2⟩) ∧
    (rest = [] →
      (s.OnProxyLookupComplete body net_error proxy_info).effects =
        s.effects ++
          [.close, .run c (proxyString proxy_info),
           .bind, .lookUpProxyForURL url,
           .dcheckFailed .start_not_bound, .bind, .lookUpProxyForURL url]) ∧
    (∀ older rest2, rest = older :: rest2 →
      (s.OnProxyLookupComplete body net_error proxy_info).effects =
        s.effects ++
          [.close, .run c (proxyString proxy_info),
           .dcheckFailed .resolve_size_is_one, .bind, .lookUpProxyForURL older.url,
           .dcheckFailed .start_not_bound, .bind, .lookUpProxyForURL older.url]) := by
  rw [OnProxyLookupComplete_cons body net_error proxy_info s front rest hq]
  cases rest with
  | nil =>
    rw [afterCallback_reentrant_last body proxy_info s front c url callback calls hc hbody]
    simp only [List.isEmpty_cons, Bool.false_eq_true, if_false]
    rw [StartPendingRequest_bound _ (boundFor url) ⟨url, callback⟩
      (calls.map fun call => ⟨call.1, call.2⟩) rfl rfl]
    simp [is_bound]
  | cons older rest2 =>
    rw [afterCallback_reentrant_more body proxy_info s front older rest2 c url callback calls
      hc hbody]
    simp only [List.cons_append, List.isEmpty_cons, Bool.false_eq_true, if_false]
    rw [StartPendingRequest_bound _ (boundFor older.url) older
      (rest2 ++ ⟨url, callback⟩ :: calls.map fun call => ⟨call.1, call.2⟩) rfl rfl]
    simp [is_bound]

/-- Witness of C16: callback 1 calls `ResolveProxy("http://z/", 9)` while it
runs.  Its request is answered with the second request already queued: both
assertions fail and the lookup of the second request is started twice, which
the single-flight check of the trace rejects. -/
theorem reentrant_resolve_breaks_single_flight_witness :
    (init.ResolveProxy "http://a/" (some 1)).ResolveProxy "http://b/" (some 2) =
      run reentrantOnce init [.resolve "http://a/" (some 1), .resolve "http://b/" (some 2)] ∧
    (((init.ResolveProxy "http://a/" (some 1)).ResolveProxy "http://b/"
        (some 2)).OnProxyLookupComplete reentrantOnce OK none).effects =
      ((init.ResolveProxy "http://a/" (some 1)).ResolveProxy "http://b/" (some 2)).effects ++
        [.close, .run 1 "",
         .dcheckFailed .resolve_size_is_one, .bind, .lookUpProxyForURL "http://b/",
         .dcheckFailed .start_not_bound, .bind, .lookUpProxyForURL "http://b/"] ∧
    singleFlight (run reentrantOnce init [.resolve "http://a/" (some 1),
      .resolve "http://b/" (some 2), .complete OK none]).effects = false :=
  ⟨rfl,
    (reentrant_resolve_breaks_single_flight reentrantOnce OK none
      ((init.ResolveProxy "http://a/" (some 1)).ResolveProxy "http://b/" (some 2))
      ⟨"http://a/", some 1⟩ [⟨"http://b/", some 2⟩] 1 "http://z/" (some 9) [] rfl rfl
      rfl).2.2.2.2 ⟨"http://b/", some 2⟩ [] rfl,
    by decide⟩

end atom
